import Mathlib

/-!
Verification of the libopenglrecorder specification.

The repository ships only the public header (openglrecorder.h); the
pipeline behind it is described by the specification.  Every definition
below is therefore modelled from the specification (and the doc comments
of the header), as noted in each doc comment.
-/

/-- Audio encoders, from the header enum AudioFormat. -/
inductive AudioFormat
  | OGR_AF_VORBIS
  deriving DecidableEq, Repr

/-- Video encoders, from the header enum VideoFormat. -/
inductive VideoFormat
  | OGR_VF_VP8
  | OGR_VF_VP9
  | OGR_VF_MJPEG
  | OGR_VF_H264
  deriving DecidableEq, Repr

/-- Recorder settings, from the header struct RecorderConfig.
C unsigned ints are modelled as Nat. -/
structure RecorderConfig where
  m_triple_buffering : Nat
  m_record_audio : Nat
  m_width : Nat
  m_height : Nat
  m_video_format : VideoFormat
  m_audio_format : AudioFormat
  m_video_bitrate : Nat
  m_audio_bitrate : Nat
  m_record_fps : Nat
  m_record_jpg_quality : Nat
  deriving DecidableEq, Repr

/-- Modelled from the spec: the requested width "will be floored down to the
closest integer divisible by 8 if needed" (header, RecorderConfig.m_width). -/
def normWidth (w : Nat) : Nat := w / 8 * 8

/-- Modelled from the spec: the requested height "will be floored down to the
closest integer divisible by 2 if needed" (header, RecorderConfig.m_height). -/
def normHeight (h : Nat) : Nat := h / 2 * 2

/-- Modelled from the spec: normalization of a configuration — dimension
rounding, and invalid values clamped to their legal range rather than
rejected (JPEG quality is 0 to 100; the two toggles are boolean flags). -/
def normalizeConfig (c : RecorderConfig) : RecorderConfig :=
  { c with
    m_width := normWidth c.m_width
    m_height := normHeight c.m_height
    m_record_jpg_quality := min c.m_record_jpg_quality 100
    m_triple_buffering := min c.m_triple_buffering 1
    m_record_audio := min c.m_record_audio 1 }

/-- Modelled from the spec: a configuration is usable when its normalized
dimensions are still nonzero ("invalid dimensions after normalization still
unusable" is the configuration error case). -/
def configUsable (c : RecorderConfig) : Bool :=
  decide (normWidth c.m_width ≠ 0) && decide (normHeight c.m_height ≠ 0)

/-- Modelled from the spec: the default configuration installed when
ogrInitConfig fails ("0 otherwise and a default configuration will be
used"). -/
def defaultConfig : RecorderConfig :=
  { m_triple_buffering := 1
    m_record_audio := 1
    m_width := 800
    m_height := 600
    m_video_format := VideoFormat.OGR_VF_MJPEG
    m_audio_format := AudioFormat.OGR_AF_VORBIS
    m_video_bitrate := 400000
    m_audio_bitrate := 112000
    m_record_fps := 30
    m_record_jpg_quality := 90 }

/-- Modelled from the spec: ogrInitConfig validates and normalizes the
configuration, returning 1 with the normalized configuration on success and
0 with the default configuration otherwise (header: "1 if succesfully
configured, 0 otherwise and a default configuration will be used"). -/
def ogrInitConfig (c : RecorderConfig) : Nat × RecorderConfig :=
  if configUsable c then (1, normalizeConfig c) else (0, defaultConfig)

/-- Modelled from the spec: the container extension appended to the saved
name, chosen by the selected video encoder's native container; the header
names ".webm or .mkv as needed" (ogrSetSavedName). -/
def containerExtension : VideoFormat → String
  | VideoFormat.OGR_VF_VP8 => ".webm"
  | VideoFormat.OGR_VF_VP9 => ".webm"
  | VideoFormat.OGR_VF_MJPEG => ".mkv"
  | VideoFormat.OGR_VF_H264 => ".mkv"

/-- Modelled from the spec: the output path is the caller-supplied
extensionless path with the container extension appended automatically. -/
def savedPath (base : String) (vf : VideoFormat) : String :=
  base ++ containerExtension vf

/-- Modelled from the spec: which optional encoder libraries this build of
the library was linked against (libvpx for VP8/VP9, openh264 for H264). -/
structure EncoderLibs where
  has_vpx : Bool
  has_openh264 : Bool
  deriving DecidableEq, Repr

/-- Modelled from the spec: availability of each video encoder; the MJPEG
encoder "is provided by turbojpeg and will be always present" (header,
OGR_VF_MJPEG), the others depend on optional libraries. -/
def videoEncoderAvailable (libs : EncoderLibs) : VideoFormat → Bool
  | VideoFormat.OGR_VF_VP8 => libs.has_vpx
  | VideoFormat.OGR_VF_VP9 => libs.has_vpx
  | VideoFormat.OGR_VF_MJPEG => true
  | VideoFormat.OGR_VF_H264 => libs.has_openh264

/-- Modelled from the spec: configuration fails on account of video-encoder
availability exactly when the selected encoder is not available. -/
def configFailsOnEncoderAvailability (libs : EncoderLibs) (c : RecorderConfig) : Bool :=
  !(videoEncoderAvailable libs c.m_video_format)

/-- Modelled from the spec: callback events delivered to the caller by the
CallbackDispatcher — start-of-recording (no payload), saved-recording
(output path string), error (message string), progress (integer percent). -/
inductive CBEvent
  | start
  | saved (path : String)
  | error (msg : String)
  | progress (pct : Nat)
  deriving DecidableEq, Repr

/-- True for saved-recording events. -/
def CBEvent.isSaved : CBEvent → Bool
  | CBEvent.saved _ => true
  | _ => false

/-- True for progress events. -/
def CBEvent.isProgress : CBEvent → Bool
  | CBEvent.progress _ => true
  | _ => false

/-- Error message reported when the audio device fails. -/
def audioDeviceErrorMsg : String := "audio device failure"

/-- Error message reported when the muxer fails to finalize the container. -/
def muxFinalizeErrorMsg : String := "container finalize failure"

/-- Error message reported when a muxer container write fails. -/
def muxWriteErrorMsg : String := "container write failure"

/-- True for the error event reporting an audio device failure. -/
def CBEvent.isDevError : CBEvent → Bool
  | CBEvent.error m => m == audioDeviceErrorMsg
  | _ => false

/-- Number of saved-recording events in a callback trace. -/
def countSaved (evs : List CBEvent) : Nat :=
  (evs.filter CBEvent.isSaved).length

/-- Number of audio-device error events in a callback trace. -/
def countDevError (evs : List CBEvent) : Nat :=
  (evs.filter CBEvent.isDevError).length

/-- Modelled from the spec: the states of the RecorderSession state
machine (spec §4.7). -/
inductive Phase
  | configured
  | preparing
  | capturing
  | stopping
  | finalizing
  | idleSaved
  | failed
  | destroyed
  deriving DecidableEq, Repr

/-- Modelled from the spec: the RecorderSession state — current phase, the
frame sequence counter, the sequence numbers forwarded to the video encode
queue (in forwarding order), the dropped-frame count, audio-path state, the
count of saved callbacks fired, and the saved name and encoder chosen at
configuration time. -/
structure Session where
  phase : Phase
  nextSeq : Nat
  queued : List Nat
  dropped : Nat
  audioActive : Bool
  audioChunks : Nat
  savedCount : Nat
  savedName : String
  videoFormat : VideoFormat
  deriving DecidableEq, Repr

/-- Modelled from the spec: the inputs driving a session — the caller API
calls (ogrPrepareCapture, ogrCapture with the observation of whether a
readback slot is free this tick, ogrStopCapture, ogrDestroy) and internal
pipeline events (a drain progress report, both encode queues draining
empty, muxer finalization with its outcome, an audio PCM chunk arriving,
and an audio device failure). -/
inductive Cmd
  | ogrPrepareCapture
  | ogrCapture (freeSlot : Bool)
  | ogrStopCapture
  | drainProgress (pct : Nat)
  | queuesEmpty
  | finalizeMux (ok : Bool)
  | audioChunk
  | audioDeviceFail
  | ogrDestroy
  deriving DecidableEq, Repr

/-- Modelled from the spec: one transition of the RecorderSession state
machine (spec §4.2, §4.3, §4.7), returning the new state and the callback
events fired during the transition.  After ogrDestroy nothing fires
("after this call, no saved/progress callback may fire even if encoding was
mid-flight ... error callbacks during teardown are also suppressed");
lifecycle misuse is a synchronous no-op with no callback; a capture tick
with no free slot drops the frame, counts it and fires nothing; a device
failure permanently disables the audio path and fires one error. -/
def step (s : Session) (c : Cmd) : Session × List CBEvent :=
  if s.phase = Phase.destroyed then (s, [])
  else
    match c with
    | Cmd.ogrPrepareCapture =>
        if s.phase = Phase.configured then
          ({ s with phase := Phase.preparing, nextSeq := 0, queued := [], dropped := 0 }, [])
        else (s, [])
    | Cmd.ogrCapture free =>
        if s.phase = Phase.preparing then
          if free then
            ({ s with
                phase := Phase.capturing
                nextSeq := s.nextSeq + 1
                queued := s.queued ++ [s.nextSeq] }, [CBEvent.start])
          else ({ s with dropped := s.dropped + 1 }, [])
        else if s.phase = Phase.capturing then
          if free then
            ({ s with nextSeq := s.nextSeq + 1, queued := s.queued ++ [s.nextSeq] }, [])
          else ({ s with dropped := s.dropped + 1 }, [])
        else (s, [])
    | Cmd.ogrStopCapture =>
        if s.phase = Phase.capturing then ({ s with phase := Phase.stopping }, [])
        else (s, [])
    | Cmd.drainProgress pct =>
        if s.phase = Phase.stopping then (s, [CBEvent.progress pct]) else (s, [])
    | Cmd.queuesEmpty =>
        if s.phase = Phase.stopping then ({ s with phase := Phase.finalizing }, [])
        else (s, [])
    | Cmd.finalizeMux ok =>
        if s.phase = Phase.finalizing then
          if ok then
            ({ s with phase := Phase.idleSaved, savedCount := s.savedCount + 1 },
             [CBEvent.saved (savedPath s.savedName s.videoFormat)])
          else ({ s with phase := Phase.failed }, [CBEvent.error muxFinalizeErrorMsg])
        else (s, [])
    | Cmd.audioChunk =>
        if s.audioActive then ({ s with audioChunks := s.audioChunks + 1 }, [])
        else (s, [])
    | Cmd.audioDeviceFail =>
        if s.audioActive then
          ({ s with audioActive := false }, [CBEvent.error audioDeviceErrorMsg])
        else (s, [])
    | Cmd.ogrDestroy => ({ s with phase := Phase.destroyed }, [])

/-- Modelled from the spec: run a session over a list of inputs, collecting
every callback event fired, in order. -/
def run (s : Session) : List Cmd → Session × List CBEvent
  | [] => (s, [])
  | c :: cs =>
      let r := step s c
      let r2 := run r.1 cs
      (r2.1, r.2 ++ r2.2)

/-- Modelled from the spec: a freshly configured session for an
audio-enabled recording with the given saved name and video encoder. -/
def initialSession (name : String) (vf : VideoFormat) : Session :=
  { phase := Phase.configured
    nextSeq := 0
    queued := []
    dropped := 0
    audioActive := true
    audioChunks := 0
    savedCount := 0
    savedName := name
    videoFormat := vf }

/-- Modelled from the spec: the ogrCapturing query reflects true only while
in Capturing or Stopping. -/
def ogrCapturing (s : Session) : Bool :=
  decide (s.phase = Phase.capturing) || decide (s.phase = Phase.stopping)

/-- C2: for every requested configuration the normalized width is the
requested width rounded down to a multiple of 8 (a multiple of 8, at most
the request, and within 8 of it) and the normalized height is the requested
height rounded down to a multiple of 2; normalization never produces a
dimension larger than the one requested. -/
theorem norm_dims_round_down (w h : Nat) :
    normWidth w % 8 = 0 ∧ normWidth w ≤ w ∧ w < normWidth w + 8 ∧
    normHeight h % 2 = 0 ∧ normHeight h ≤ h ∧ h < normHeight h + 2 := by
  have hw := Nat.div_add_mod w 8
  have hw2 : w % 8 < 8 := Nat.mod_lt _ (by decide)
  have hh := Nat.div_add_mod h 2
  have hh2 : h % 2 < 2 := Nat.mod_lt _ (by decide)
  refine ⟨Nat.mul_mod_left _ _, ?_, ?_, Nat.mul_mod_left _ _, ?_, ?_⟩ <;>
    · simp only [normWidth, normHeight]
      omega

/-- Splitting a run over list append. -/
theorem run_append (as bs : List Cmd) (s : Session) :
    run s (as ++ bs) =
      ((run (run s as).1 bs).1, (run s as).2 ++ (run (run s as).1 bs).2) := by
  induction as generalizing s with
  | nil => simp [run]
  | cons a as ih => simp [run, ih, List.append_assoc]

/-- A destroyed session ignores every input and fires nothing. -/
theorem step_destroyed (s : Session) (c : Cmd) (h : s.phase = Phase.destroyed) :
    step s c = (s, []) := by
  simp [step, h]

/-- A destroyed session stays destroyed and fires nothing over any run. -/
theorem run_destroyed (cs : List Cmd) (s : Session) (h : s.phase = Phase.destroyed) :
    run s cs = (s, []) := by
  induction cs with
  | nil => simp [run]
  | cons c cs ih => simp [run, step_destroyed s c h, ih]

/-- ogrDestroy always leaves the session in the Destroyed phase. -/
theorem step_destroy_phase (s : Session) :
    ((step s Cmd.ogrDestroy).1).phase = Phase.destroyed := by
  unfold step
  split
  · assumption
  · rfl

/-- countSaved distributes over trace concatenation. -/
theorem countSaved_append (a b : List CBEvent) :
    countSaved (a ++ b) = countSaved a + countSaved b := by
  simp [countSaved]

/-- Exact accounting: a step raises the saved counter by exactly the number
of saved events it fires. -/
theorem step_savedCount (s : Session) (c : Cmd) :
    (step s c).1.savedCount = s.savedCount + countSaved (step s c).2 := by
  unfold step
  split
  · simp [countSaved]
  · cases c <;> simp only [] <;> (repeat' split) <;>
      simp [countSaved, CBEvent.isSaved]

/-- Exact accounting over a whole run. -/
theorem run_savedCount (cs : List Cmd) (s : Session) :
    (run s cs).1.savedCount = s.savedCount + countSaved (run s cs).2 := by
  induction cs generalizing s with
  | nil => simp [run, countSaved]
  | cons c cs ih =>
      simp only [run, countSaved_append]
      rw [ih, step_savedCount]
      omega

/-- Once the saved callback has fired, the session can only be in the
saved terminal phase or destroyed; the counter never passes 1. -/
def SavedInv (s : Session) : Prop :=
  s.savedCount ≤ 1 ∧
    (s.savedCount = 1 → s.phase = Phase.idleSaved ∨ s.phase = Phase.destroyed)

/-- Each step preserves the saved-once invariant. -/
theorem step_SavedInv (s : Session) (c : Cmd) (h : SavedInv s) :
    SavedInv (step s c).1 := by
  obtain ⟨h1, h2⟩ := h
  unfold step
  split
  · exact ⟨h1, h2⟩
  · rename_i hnd
    cases c <;> simp only [] <;> (repeat' split) <;>
      (simp_all [SavedInv]; try omega)

/-- The saved-once invariant is preserved by whole runs. -/
theorem run_SavedInv (cs : List Cmd) (s : Session) (h : SavedInv s) :
    SavedInv (run s cs).1 := by
  induction cs generalizing s with
  | nil => exact h
  | cons c cs ih =>
      simp only [run]
      exact ih _ (step_SavedInv s c h)

/-- C1: for every session the saved-recording callback fires at most once,
and once ogrDestroy has been processed neither the saved-recording callback
nor the progress callback ever fires again, whatever inputs follow. -/
theorem saved_once_and_silent_after_destroy (n : String) (vf : VideoFormat)
    (cmds pre post : List Cmd) :
    countSaved (run (initialSession n vf) cmds).2 ≤ 1 ∧
    List.filter CBEvent.isSaved
      (run (run (initialSession n vf) (pre ++ [Cmd.ogrDestroy])).1 post).2 = [] ∧
    List.filter CBEvent.isProgress
      (run (run (initialSession n vf) (pre ++ [Cmd.ogrDestroy])).1 post).2 = [] := by
  have hphase :
      ((run (initialSession n vf) (pre ++ [Cmd.ogrDestroy])).1).phase = Phase.destroyed := by
    rw [run_append]
    simp only [run]
    exact step_destroy_phase _
  refine ⟨?_, ?_, ?_⟩
  · have hinv : SavedInv (run (initialSession n vf) cmds).1 :=
      run_SavedInv cmds _ (by simp [SavedInv, initialSession])
    have hacc := run_savedCount cmds (initialSession n vf)
    have hs0 : (initialSession n vf).savedCount = 0 := rfl
    rw [hs0] at hacc
    obtain ⟨h1, _⟩ := hinv
    omega
  · rw [run_destroyed post _ hphase]
    simp
  · rw [run_destroyed post _ hphase]
    simp

/-- A concrete mid-recording session used to witness per-state theorems. -/
def capSession : Session :=
  { phase := Phase.capturing
    nextSeq := 2
    queued := [0, 1]
    dropped := 0
    audioActive := true
    audioChunks := 3
    savedCount := 0
    savedName := "record"
    videoFormat := VideoFormat.OGR_VF_MJPEG }

/-- C3: in the Capturing state a capture tick that finds no free readback
slot drops that tick's frame and counts it, forwards nothing to the encode
queue, fires no callback, and leaves the session capturing. -/
theorem capture_backpressure_drops (s : Session) (h : s.phase = Phase.capturing) :
    step s (Cmd.ogrCapture false) = ({ s with dropped := s.dropped + 1 }, []) ∧
    (step s (Cmd.ogrCapture false)).1.phase = Phase.capturing ∧
    (step s (Cmd.ogrCapture false)).1.queued = s.queued ∧
    (step s (Cmd.ogrCapture false)).2 = [] := by
  simp [step, h]

/-- Witness for C3 at a concrete capturing session. -/
theorem capture_backpressure_drops_witness :
    capSession.phase = Phase.capturing ∧
    (step capSession (Cmd.ogrCapture false) = ({ capSession with dropped := capSession.dropped + 1 }, []) ∧
     (step capSession (Cmd.ogrCapture false)).1.phase = Phase.capturing ∧
     (step capSession (Cmd.ogrCapture false)).1.queued = capSession.queued ∧
     (step capSession (Cmd.ogrCapture false)).2 = []) :=
  ⟨rfl, capture_backpressure_drops capSession rfl⟩

/-- Sequence-number invariant: the encode queue is strictly increasing and
bounded by the next sequence number to be issued. -/
def SeqInv (s : Session) : Prop :=
  s.queued.Pairwise (· < ·) ∧ ∀ q ∈ s.queued, q < s.nextSeq

/-- Each step preserves the sequence-number invariant. -/
theorem step_SeqInv (s : Session) (c : Cmd) (h : SeqInv s) :
    SeqInv (step s c).1 := by
  obtain ⟨h1, h2⟩ := h
  have happ : List.Pairwise (fun a b => a < b) (s.queued ++ [s.nextSeq]) := by
    refine List.pairwise_append.2 ⟨h1, by simp, ?_⟩
    intro a ha b hb
    rw [List.mem_singleton] at hb
    subst hb
    exact h2 a ha
  have hbound : ∀ q ∈ s.queued ++ [s.nextSeq], q < s.nextSeq + 1 := by
    intro q hq
    rcases List.mem_append.1 hq with hq | hq
    · exact Nat.lt_succ_of_lt (h2 q hq)
    · rw [List.mem_singleton] at hq
      omega
  have hnil : ∀ q ∈ ([] : List Nat), q < 0 := by simp
  unfold step SeqInv
  split
  · exact ⟨h1, h2⟩
  · cases c <;> simp only [] <;> (repeat' split) <;>
      first
        | exact ⟨h1, h2⟩
        | exact ⟨happ, hbound⟩
        | exact ⟨List.Pairwise.nil, hnil⟩

/-- The sequence-number invariant holds over whole runs. -/
theorem run_SeqInv (cs : List Cmd) (s : Session) (h : SeqInv s) :
    SeqInv (run s cs).1 := by
  induction cs generalizing s with
  | nil => exact h
  | cons c cs ih =>
      simp only [run]
      exact ih _ (step_SeqInv s c h)

/-- C4: over every execution, the sequence numbers of the frames forwarded
to the video encode worker are strictly increasing (hence duplicate-free),
including executions in which capture ticks drop frames under backpressure. -/
theorem encode_queue_strictly_increasing (n : String) (vf : VideoFormat)
    (cmds : List Cmd) :
    ((run (initialSession n vf) cmds).1.queued).Pairwise (· < ·) :=
  (run_SeqInv cmds _ (by simp [SeqInv, initialSession])).1

/-- The saved name and chosen encoder are fixed at configuration time and
never change over a session's lifetime. -/
theorem step_config_const (s : Session) (c : Cmd) :
    (step s c).1.savedName = s.savedName ∧ (step s c).1.videoFormat = s.videoFormat := by
  unfold step
  split
  · exact ⟨rfl, rfl⟩
  · cases c <;> simp only [] <;> (repeat' split) <;> simp

/-- A single step fires either no saved event or exactly the saved event
carrying the session's output path. -/
theorem step_saved_events (s : Session) (c : Cmd) :
    List.filter CBEvent.isSaved (step s c).2 = [] ∨
    List.filter CBEvent.isSaved (step s c).2 =
      [CBEvent.saved (savedPath s.savedName s.videoFormat)] := by
  unfold step
  split
  · left; rfl
  · cases c <;> simp only [] <;> (repeat' split) <;> simp [CBEvent.isSaved]

/-- Any saved event fired by a single step carries the session's output
path. -/
theorem step_saved_payload (s : Session) (c : Cmd) (e : CBEvent)
    (he : e ∈ (step s c).2) (hs : e.isSaved = true) :
    e = CBEvent.saved (savedPath s.savedName s.videoFormat) := by
  have hmem : e ∈ List.filter CBEvent.isSaved (step s c).2 :=
    List.mem_filter.2 ⟨he, hs⟩
  rcases step_saved_events s c with h | h <;> rw [h] at hmem
  · simp at hmem
  · simpa using hmem

/-- Any saved event fired during a run carries the session's output path. -/
theorem run_saved_payload (cs : List Cmd) (s : Session) (e : CBEvent)
    (he : e ∈ (run s cs).2) (hs : e.isSaved = true) :
    e = CBEvent.saved (savedPath s.savedName s.videoFormat) := by
  induction cs generalizing s with
  | nil => simp [run] at he
  | cons c cs ih =>
      simp only [run] at he
      rcases List.mem_append.1 he with h | h
      · exact step_saved_payload s c e h hs
      · have hrec := ih (step s c).1 h
        rw [(step_config_const s c).1, (step_config_const s c).2] at hrec
        exact hrec

/-- C9: every saved-recording callback of a session reports the
caller-supplied extensionless path with the container extension of the
selected video encoder appended, and that extension is .webm or .mkv for
every encoder variant (including MJPEG). -/
theorem saved_path_has_container_extension (n : String) (vf : VideoFormat)
    (cmds : List Cmd) (e : CBEvent)
    (he : e ∈ (run (initialSession n vf) cmds).2) (hs : e.isSaved = true) :
    e = CBEvent.saved (savedPath n vf) ∧
    savedPath n vf = n ++ containerExtension vf ∧
    (containerExtension vf = ".webm" ∨ containerExtension vf = ".mkv") := by
  refine ⟨run_saved_payload cmds (initialSession n vf) e he hs, rfl, ?_⟩
  cases vf <;> simp [containerExtension]

/-- A complete successful session driven through every phase, used to
witness trace-level theorems. -/
def demoCmds : List Cmd :=
  [Cmd.ogrPrepareCapture, Cmd.ogrCapture true, Cmd.audioChunk,
   Cmd.ogrCapture true, Cmd.ogrCapture false, Cmd.ogrStopCapture,
   Cmd.drainProgress 50, Cmd.queuesEmpty, Cmd.finalizeMux true]

/-- Witness for C9 on a concrete MJPEG session that saves successfully. -/
theorem saved_path_has_container_extension_witness :
    CBEvent.saved "demo.mkv" ∈
      (run (initialSession "demo" VideoFormat.OGR_VF_MJPEG) demoCmds).2 ∧
    (CBEvent.saved "demo.mkv").isSaved = true ∧
    (CBEvent.saved "demo.mkv" =
        CBEvent.saved (savedPath "demo" VideoFormat.OGR_VF_MJPEG) ∧
      savedPath "demo" VideoFormat.OGR_VF_MJPEG =
        "demo" ++ containerExtension VideoFormat.OGR_VF_MJPEG ∧
      (containerExtension VideoFormat.OGR_VF_MJPEG = ".webm" ∨
        containerExtension VideoFormat.OGR_VF_MJPEG = ".mkv")) :=
  ⟨by decide, by decide,
    saved_path_has_container_extension "demo" VideoFormat.OGR_VF_MJPEG demoCmds
      (CBEvent.saved "demo.mkv") (by decide) (by decide)⟩

/-- countDevError distributes over trace concatenation. -/
theorem countDevError_append (a b : List CBEvent) :
    countDevError (a ++ b) = countDevError a + countDevError b := by
  simp [countDevError]

/-- Steps other than an audio device failure never fire the audio-device
error callback. -/
theorem step_devError_count (s : Session) (c : Cmd) (h : c ≠ Cmd.audioDeviceFail) :
    countDevError (step s c).2 = 0 := by
  unfold step
  split
  · rfl
  · cases c <;> simp only [] <;> (repeat' split) <;>
      first
        | rfl
        | exact absurd rfl h

/-- A run containing no audio device failure fires no audio-device error
callback. -/
theorem run_devError_zero (cs : List Cmd) (s : Session)
    (h : Cmd.audioDeviceFail ∉ cs) :
    countDevError (run s cs).2 = 0 := by
  induction cs generalizing s with
  | nil => rfl
  | cons c cs ih =>
      simp only [run, countDevError_append]
      rw [step_devError_count s c (fun hc => h (hc ▸ List.mem_cons_self c cs)),
        ih _ (fun hc => h (List.mem_cons_of_mem c hc))]

/-- An audio device failure on a live session with an active audio path
disables audio and fires exactly the audio-device error callback. -/
theorem step_devfail_active (s : Session)
    (hp : s.phase ≠ Phase.destroyed) (ha : s.audioActive = true) :
    step s Cmd.audioDeviceFail =
      ({ s with audioActive := false }, [CBEvent.error audioDeviceErrorMsg]) := by
  simp [step, hp, ha]

/-- No input other than ogrDestroy can drive a session into the Destroyed
phase. -/
theorem step_preserves_not_destroyed (s : Session) (c : Cmd)
    (hc : c ≠ Cmd.ogrDestroy) (hp : s.phase ≠ Phase.destroyed) :
    (step s c).1.phase ≠ Phase.destroyed := by
  unfold step
  split
  · exact hp
  · cases c <;> simp only [] <;> (repeat' split) <;>
      first
        | exact hp
        | exact absurd rfl hc
        | simp

/-- A run without ogrDestroy never reaches the Destroyed phase. -/
theorem run_preserves_not_destroyed (cs : List Cmd) (s : Session)
    (hc : Cmd.ogrDestroy ∉ cs) (hp : s.phase ≠ Phase.destroyed) :
    (run s cs).1.phase ≠ Phase.destroyed := by
  induction cs generalizing s with
  | nil => exact hp
  | cons c cs ih =>
      simp only [run]
      exact ih _ (fun hcs => hc (List.mem_cons_of_mem c hcs))
        (step_preserves_not_destroyed s c
          (fun h => hc (h ▸ List.mem_cons_self c cs)) hp)

/-- Steps other than an audio device failure leave the audio path state
unchanged. -/
theorem step_audioActive_const (s : Session) (c : Cmd)
    (h : c ≠ Cmd.audioDeviceFail) :
    (step s c).1.audioActive = s.audioActive := by
  unfold step
  split
  · rfl
  · cases c <;> simp only [] <;> (repeat' split) <;>
      first
        | rfl
        | exact absurd rfl h

/-- A run without an audio device failure leaves the audio path state
unchanged. -/
theorem run_audioActive_const (cs : List Cmd) (s : Session)
    (h : Cmd.audioDeviceFail ∉ cs) :
    (run s cs).1.audioActive = s.audioActive := by
  induction cs generalizing s with
  | nil => rfl
  | cons c cs ih =>
      simp only [run]
      rw [ih _ (fun hc => h (List.mem_cons_of_mem c hc)),
        step_audioActive_const s c (fun hc => h (hc ▸ List.mem_cons_self c cs))]

/-- Once the audio path is disabled it stays disabled and no further PCM
chunk is ever consumed. -/
theorem step_audio_frozen (s : Session) (c : Cmd) (h : s.audioActive = false) :
    (step s c).1.audioActive = false ∧ (step s c).1.audioChunks = s.audioChunks := by
  unfold step
  split
  · exact ⟨h, rfl⟩
  · cases c <;> simp only [] <;> (repeat' split) <;> simp_all

/-- Over a whole run a disabled audio path stays disabled and consumes
nothing. -/
theorem run_audio_frozen (cs : List Cmd) (s : Session) (h : s.audioActive = false) :
    (run s cs).1.audioActive = false ∧ (run s cs).1.audioChunks = s.audioChunks := by
  induction cs generalizing s with
  | nil => exact ⟨h, rfl⟩
  | cons c cs ih =>
      simp only [run]
      obtain ⟨h1, h2⟩ := step_audio_frozen s c h
      obtain ⟨h3, h4⟩ := ih _ h1
      exact ⟨h3, h4.trans h2⟩

/-- The video-pipeline and lifecycle projection of a session state:
everything except the audio-path fields. -/
def vproj (s : Session) : Phase × Nat × List Nat × Nat × Nat × String × VideoFormat :=
  (s.phase, s.nextSeq, s.queued, s.dropped, s.savedCount, s.savedName, s.videoFormat)

/-- Sessions that agree outside the audio path still agree outside the
audio path after any single step. -/
theorem step_vproj_congr (s t : Session) (c : Cmd) (h : vproj s = vproj t) :
    vproj (step s c).1 = vproj (step t c).1 := by
  obtain ⟨p, ns, q, d, aa, ac, sc, sn, vf⟩ := s
  obtain ⟨p2, ns2, q2, d2, aa2, ac2, sc2, sn2, vf2⟩ := t
  simp only [vproj, Prod.mk.injEq] at h
  obtain ⟨h1, h2, h3, h4, h5, h6, h7⟩ := h
  subst h1; subst h2; subst h3; subst h4; subst h5; subst h6; subst h7
  cases c <;> simp only [step] <;> (repeat' split) <;> simp_all [vproj]

/-- Sessions that agree outside the audio path still agree outside the
audio path after any run. -/
theorem run_vproj_congr (cs : List Cmd) (s t : Session) (h : vproj s = vproj t) :
    vproj (run s cs).1 = vproj (run t cs).1 := by
  induction cs generalizing s t with
  | nil => exact h
  | cons c cs ih =>
      simp only [run]
      exact ih _ _ (step_vproj_congr s t c h)

/-- An audio device failure alone changes nothing outside the audio path. -/
theorem step_devfail_vproj (s : Session) :
    vproj (step s Cmd.audioDeviceFail).1 = vproj s := by
  simp only [step]
  split
  · rfl
  · split <;> rfl

/-- Erasing the audio device failures from the inputs changes nothing
outside the audio path: the video pipeline and the session lifecycle are
unaffected by audio device failures. -/
theorem run_erase_devfail (cs : List Cmd) (s : Session) :
    vproj (run s (cs.filter (fun c => decide (c ≠ Cmd.audioDeviceFail)))).1 =
      vproj (run s cs).1 := by
  induction cs generalizing s with
  | nil => rfl
  | cons c cs ih =>
      by_cases hc : c = Cmd.audioDeviceFail
      · subst hc
        have hf : List.filter (fun c => decide (c ≠ Cmd.audioDeviceFail))
            (Cmd.audioDeviceFail :: cs) =
            List.filter (fun c => decide (c ≠ Cmd.audioDeviceFail)) cs := by
          simp
        rw [hf]
        simp only [run]
        exact (ih s).trans (run_vproj_congr cs _ _ (step_devfail_vproj s).symm)
      · have hf : List.filter (fun c => decide (c ≠ Cmd.audioDeviceFail)) (c :: cs) =
            c :: List.filter (fun c => decide (c ≠ Cmd.audioDeviceFail)) cs := by
          simp [hc]
        rw [hf]
        simp only [run]
        exact ih _

/-- C7: when the audio device fails during a session, audio capture stops
for the remainder of that session (no further PCM chunk is consumed),
exactly one error callback reports the failure, and the video pipeline and
session lifecycle are exactly as they would have been without the failure,
so the session completes audio-less rather than aborting. -/
theorem audio_device_failure_contained (n : String) (vf : VideoFormat)
    (pre post : List Cmd)
    (hpre : Cmd.audioDeviceFail ∉ pre) (hpost : Cmd.audioDeviceFail ∉ post)
    (hdes : Cmd.ogrDestroy ∉ pre) :
    (run (initialSession n vf) (pre ++ Cmd.audioDeviceFail :: post)).1.audioActive = false ∧
    (run (initialSession n vf) (pre ++ Cmd.audioDeviceFail :: post)).1.audioChunks =
      (run (initialSession n vf) pre).1.audioChunks ∧
    countDevError (run (initialSession n vf) (pre ++ Cmd.audioDeviceFail :: post)).2 = 1 ∧
    vproj (run (initialSession n vf) (pre ++ Cmd.audioDeviceFail :: post)).1 =
      vproj (run (initialSession n vf) (pre ++ post)).1 := by
  have ha1 : (run (initialSession n vf) pre).1.audioActive = true :=
    run_audioActive_const pre _ hpre
  have hp1 : (run (initialSession n vf) pre).1.phase ≠ Phase.destroyed :=
    run_preserves_not_destroyed pre _ hdes (by simp [initialSession])
  have hstep := step_devfail_active _ hp1 ha1
  have hfrozen := run_audio_frozen post
    ({ (run (initialSession n vf) pre).1 with audioActive := false }) rfl
  refine ⟨?_, ?_, ?_, ?_⟩
  · rw [run_append]
    simp only [run, hstep]
    exact hfrozen.1
  · rw [run_append]
    simp only [run, hstep]
    exact hfrozen.2
  · rw [run_append]
    simp only [run, hstep, countDevError_append]
    rw [run_devError_zero pre _ hpre, run_devError_zero post _ hpost]
    decide
  · have hfil : List.filter (fun c => decide (c ≠ Cmd.audioDeviceFail))
        (pre ++ Cmd.audioDeviceFail :: post) = pre ++ post := by
      rw [List.filter_append]
      have h1 : List.filter (fun c => decide (c ≠ Cmd.audioDeviceFail)) pre = pre :=
        List.filter_eq_self.2 (fun a ha => decide_eq_true (fun h => hpre (h ▸ ha)))
      have h3 : List.filter (fun c => decide (c ≠ Cmd.audioDeviceFail)) post = post :=
        List.filter_eq_self.2 (fun a ha => decide_eq_true (fun h => hpost (h ▸ ha)))
      have h2 : List.filter (fun c => decide (c ≠ Cmd.audioDeviceFail))
          (Cmd.audioDeviceFail :: post) = post := by
        simp [h3]
        exact fun a ha h => hpost (h ▸ ha)
      rw [h1, h2]
    have hs := run_erase_devfail (pre ++ Cmd.audioDeviceFail :: post) (initialSession n vf)
    rw [hfil] at hs
    exact hs.symm

/-- Inputs before a concrete mid-session audio failure. -/
def preW : List Cmd := [Cmd.ogrPrepareCapture, Cmd.ogrCapture true, Cmd.audioChunk]

/-- Inputs after a concrete mid-session audio failure: the session keeps
capturing video and completes successfully. -/
def postW : List Cmd :=
  [Cmd.ogrCapture true, Cmd.audioChunk, Cmd.ogrStopCapture, Cmd.queuesEmpty,
   Cmd.finalizeMux true]

/-- Witness for C7 at a concrete session with an audio failure mid-capture. -/
theorem audio_device_failure_contained_witness :
    Cmd.audioDeviceFail ∉ preW ∧ Cmd.audioDeviceFail ∉ postW ∧ Cmd.ogrDestroy ∉ preW ∧
    ((run (initialSession "demo" VideoFormat.OGR_VF_VP8) (preW ++ Cmd.audioDeviceFail :: postW)).1.audioActive = false ∧
     (run (initialSession "demo" VideoFormat.OGR_VF_VP8) (preW ++ Cmd.audioDeviceFail :: postW)).1.audioChunks =
       (run (initialSession "demo" VideoFormat.OGR_VF_VP8) preW).1.audioChunks ∧
     countDevError (run (initialSession "demo" VideoFormat.OGR_VF_VP8) (preW ++ Cmd.audioDeviceFail :: postW)).2 = 1 ∧
     vproj (run (initialSession "demo" VideoFormat.OGR_VF_VP8) (preW ++ Cmd.audioDeviceFail :: postW)).1 =
       vproj (run (initialSession "demo" VideoFormat.OGR_VF_VP8) (preW ++ postW)).1) :=
  ⟨by decide, by decide, by decide,
    audio_device_failure_contained "demo" VideoFormat.OGR_VF_VP8 preW postW
      (by decide) (by decide) (by decide)⟩

/-- Modelled from the spec: the stream tag of an encoded packet. -/
inductive StreamTag
  | video
  | audio
  deriving DecidableEq, Repr

/-- Modelled from the spec: an EncodedPacket — compressed payload size,
presentation timestamp, stream tag and keyframe flag. -/
structure EncodedPacket where
  pts : Nat
  stream : StreamTag
  keyframe : Bool
  deriving DecidableEq, Repr

/-- Modelled from the spec: the Muxer merge step — packets from the two
per-stream queues are written out by ascending presentation timestamp,
with ties broken in stream-stable order (the first queue wins), as required
for deterministic interleaving (spec §4.6, §5). -/
def mergePackets : List EncodedPacket → List EncodedPacket → List EncodedPacket
  | [], bs => bs
  | as, [] => as
  | a :: as, b :: bs =>
      if a.pts ≤ b.pts then a :: mergePackets as (b :: bs)
      else b :: mergePackets (a :: as) bs
termination_by as bs => as.length + bs.length

/-- Every packet of a merge comes from one of the two inputs. -/
theorem mem_mergePackets (as bs : List EncodedPacket) (p : EncodedPacket) :
    p ∈ mergePackets as bs → p ∈ as ∨ p ∈ bs := by
  induction as, bs using mergePackets.induct with
  | case1 bs =>
      intro h
      rw [mergePackets.eq_1] at h
      exact Or.inr h
  | case2 as hne =>
      intro h
      rw [mergePackets.eq_2 as hne] at h
      exact Or.inl h
  | case3 a as b bs hle ih =>
      intro h
      rw [mergePackets.eq_3, if_pos hle] at h
      rcases List.mem_cons.mp h with h | h
      · exact Or.inl (h ▸ List.mem_cons_self a as)
      · rcases ih h with h1 | h1
        · exact Or.inl (List.mem_cons_of_mem a h1)
        · exact Or.inr h1
  | case4 a as b bs hle ih =>
      intro h
      rw [mergePackets.eq_3, if_neg hle] at h
      rcases List.mem_cons.mp h with h | h
      · exact Or.inr (h ▸ List.mem_cons_self b bs)
      · rcases ih h with h1 | h1
        · exact Or.inl h1
        · exact Or.inr (List.mem_cons_of_mem b h1)

/-- C5: when the per-stream packet queues are each in non-decreasing
presentation-timestamp order, the merged sequence of packets the muxer
writes to the container, across both the video and the audio stream, has
non-decreasing presentation timestamps. -/
theorem mux_output_timestamps_nondecreasing (vs as : List EncodedPacket)
    (hv : vs.Pairwise (fun p q => p.pts ≤ q.pts))
    (ha : as.Pairwise (fun p q => p.pts ≤ q.pts)) :
    (mergePackets vs as).Pairwise (fun p q => p.pts ≤ q.pts) := by
  induction vs, as using mergePackets.induct with
  | case1 bs =>
      rw [mergePackets.eq_1]
      exact ha
  | case2 as hne =>
      rw [mergePackets.eq_2 as hne]
      exact hv
  | case3 a as b bs hle ih =>
      rw [mergePackets.eq_3, if_pos hle]
      have hv2 := List.pairwise_cons.mp hv
      refine List.pairwise_cons.mpr ⟨?_, ih hv2.2 ha⟩
      intro q hq
      rcases mem_mergePackets as (b :: bs) q hq with h1 | h1
      · exact hv2.1 q h1
      · rcases List.mem_cons.mp h1 with h2 | h2
        · exact h2 ▸ hle
        · exact le_trans hle ((List.pairwise_cons.mp ha).1 q h2)
  | case4 a as b bs hle ih =>
      rw [mergePackets.eq_3, if_neg hle]
      have ha2 := List.pairwise_cons.mp ha
      refine List.pairwise_cons.mpr ⟨?_, ih hv ha2.2⟩
      intro q hq
      rcases mem_mergePackets (a :: as) bs q hq with h1 | h1
      · have hba : b.pts ≤ a.pts := le_of_not_le hle
        rcases List.mem_cons.mp h1 with h2 | h2
        · exact h2 ▸ hba
        · exact le_trans hba ((List.pairwise_cons.mp hv).1 q h2)
      · exact ha2.1 q h1

/-- A concrete sorted video packet queue. -/
def videoPacketsW : List EncodedPacket :=
  [⟨0, StreamTag.video, true⟩, ⟨40, StreamTag.video, false⟩,
   ⟨80, StreamTag.video, false⟩]

/-- A concrete sorted audio packet queue. -/
def audioPacketsW : List EncodedPacket :=
  [⟨0, StreamTag.audio, false⟩, ⟨60, StreamTag.audio, false⟩]

/-- Witness for C5 on concrete video and audio queues. -/
theorem mux_output_timestamps_nondecreasing_witness :
    videoPacketsW.Pairwise (fun p q => p.pts ≤ q.pts) ∧
    audioPacketsW.Pairwise (fun p q => p.pts ≤ q.pts) ∧
    (mergePackets videoPacketsW audioPacketsW).Pairwise (fun p q => p.pts ≤ q.pts) :=
  ⟨by decide, by decide,
    mux_output_timestamps_nondecreasing videoPacketsW audioPacketsW
      (by decide) (by decide)⟩

/-- Modelled from the spec: the Muxer state — whether the session has been
marked failed by a container write failure, the packets successfully
appended to the container, and whether the (partial) output file exists on
disk. -/
structure MuxState where
  muxFailed : Bool
  written : List EncodedPacket
  fileExists : Bool
  deriving DecidableEq, Repr

/-- Modelled from the spec: the muxer state right after the container has
been opened: no failure yet, nothing written, the output file created. -/
def muxInit : MuxState :=
  { muxFailed := false, written := [], fileExists := true }

/-- Modelled from the spec: writePacket together with the outcome of the
underlying container write.  Once a write has failed the session is marked
failed and every further packet is discarded; the failing write itself
fires one error callback; the partial output file is never deleted
(spec §4.6). -/
def writePacket (st : MuxState) (p : EncodedPacket) (ok : Bool) :
    MuxState × List CBEvent :=
  if st.muxFailed then (st, [])
  else if ok then ({ st with written := st.written ++ [p] }, [])
  else ({ st with muxFailed := true }, [CBEvent.error muxWriteErrorMsg])

/-- Modelled from the spec: run the muxer over a sequence of packets with
their container write outcomes, collecting the callback events fired. -/
def muxRun (st : MuxState) : List (EncodedPacket × Bool) → MuxState × List CBEvent
  | [] => (st, [])
  | x :: xs =>
      let r := writePacket st x.1 x.2
      let r2 := muxRun r.1 xs
      (r2.1, r.2 ++ r2.2)

/-- Splitting a muxer run over list append. -/
theorem muxRun_append (xs ys : List (EncodedPacket × Bool)) (st : MuxState) :
    muxRun st (xs ++ ys) =
      ((muxRun (muxRun st xs).1 ys).1,
        (muxRun st xs).2 ++ (muxRun (muxRun st xs).1 ys).2) := by
  induction xs generalizing st with
  | nil => simp [muxRun]
  | cons x xs ih => simp [muxRun, ih, List.append_assoc]

/-- While every write succeeds, the muxer appends every packet in order and
fires nothing. -/
theorem muxRun_all_ok (xs : List (EncodedPacket × Bool)) (st : MuxState)
    (h : ∀ x ∈ xs, x.2 = true) (hf : st.muxFailed = false) :
    muxRun st xs = ({ st with written := st.written ++ xs.map Prod.fst }, []) := by
  induction xs generalizing st with
  | nil => simp [muxRun]
  | cons x xs ih =>
      have hx : x.2 = true := h x (List.mem_cons_self x xs)
      simp only [muxRun, writePacket, hf, hx]
      rw [ih _ (fun y hy => h y (List.mem_cons_of_mem x hy)) rfl]
      simp

/-- A failed muxer discards every packet and fires nothing. -/
theorem muxRun_after_failure (xs : List (EncodedPacket × Bool)) (st : MuxState)
    (h : st.muxFailed = true) :
    muxRun st xs = (st, []) := by
  induction xs generalizing st with
  | nil => rfl
  | cons x xs ih =>
      simp only [muxRun, writePacket, h]
      simp [ih st h]

/-- C6: when a container write fails, the session is marked failed, every
packet produced afterwards is discarded rather than written (the container
holds exactly the packets appended before the failure), exactly one error
callback fires to report it, and the partial output file is left in
place. -/
theorem mux_write_failure_fatal (pre post : List (EncodedPacket × Bool))
    (p : EncodedPacket) (hpre : ∀ x ∈ pre, x.2 = true) :
    (muxRun muxInit (pre ++ (p, false) :: post)).1.muxFailed = true ∧
    (muxRun muxInit (pre ++ (p, false) :: post)).1.written = pre.map Prod.fst ∧
    (muxRun muxInit (pre ++ (p, false) :: post)).2 =
      [CBEvent.error muxWriteErrorMsg] ∧
    (muxRun muxInit (pre ++ (p, false) :: post)).1.fileExists = true := by
  rw [muxRun_append, muxRun_all_ok pre muxInit hpre rfl]
  simp only [muxRun, writePacket]
  rw [muxRun_after_failure post _ rfl]
  simp [muxInit]

/-- Witness for C6: two successful writes followed by a failing one and a
discarded trailing packet. -/
theorem mux_write_failure_fatal_witness :
    (∀ x ∈ [((⟨0, StreamTag.video, true⟩ : EncodedPacket), true),
            ((⟨40, StreamTag.audio, false⟩ : EncodedPacket), true)], x.2 = true) ∧
    ((muxRun muxInit
        ([((⟨0, StreamTag.video, true⟩ : EncodedPacket), true),
          ((⟨40, StreamTag.audio, false⟩ : EncodedPacket), true)] ++
          ((⟨80, StreamTag.video, false⟩ : EncodedPacket), false) ::
            [((⟨120, StreamTag.video, false⟩ : EncodedPacket), true)])).1.muxFailed = true ∧
     (muxRun muxInit
        ([((⟨0, StreamTag.video, true⟩ : EncodedPacket), true),
          ((⟨40, StreamTag.audio, false⟩ : EncodedPacket), true)] ++
          ((⟨80, StreamTag.video, false⟩ : EncodedPacket), false) ::
            [((⟨120, StreamTag.video, false⟩ : EncodedPacket), true)])).1.written =
       [((⟨0, StreamTag.video, true⟩ : EncodedPacket), true),
        ((⟨40, StreamTag.audio, false⟩ : EncodedPacket), true)].map Prod.fst ∧
     (muxRun muxInit
        ([((⟨0, StreamTag.video, true⟩ : EncodedPacket), true),
          ((⟨40, StreamTag.audio, false⟩ : EncodedPacket), true)] ++
          ((⟨80, StreamTag.video, false⟩ : EncodedPacket), false) ::
            [((⟨120, StreamTag.video, false⟩ : EncodedPacket), true)])).2 =
       [CBEvent.error muxWriteErrorMsg] ∧
     (muxRun muxInit
        ([((⟨0, StreamTag.video, true⟩ : EncodedPacket), true),
          ((⟨40, StreamTag.audio, false⟩ : EncodedPacket), true)] ++
          ((⟨80, StreamTag.video, false⟩ : EncodedPacket), false) ::
            [((⟨120, StreamTag.video, false⟩ : EncodedPacket), true)])).1.fileExists = true) :=
  ⟨by decide,
    mux_write_failure_fatal
      [((⟨0, StreamTag.video, true⟩ : EncodedPacket), true),
       ((⟨40, StreamTag.audio, false⟩ : EncodedPacket), true)]
      [((⟨120, StreamTag.video, false⟩ : EncodedPacket), true)]
      (⟨80, StreamTag.video, false⟩ : EncodedPacket) (by decide)⟩

/-- C8: ogrInitConfig returns 1 exactly when the normalization pass
succeeds and 0 otherwise; an out-of-range JPEG quality is clamped rather
than causing rejection (the success result never depends on it and the
resulting quality is always at most 100); and whenever 0 is returned the
default configuration is installed for the session. -/
theorem ogrInitConfig_result (c : RecorderConfig) (q : Nat) :
    (ogrInitConfig c).1 = (if configUsable c then 1 else 0) ∧
    (ogrInitConfig { c with m_record_jpg_quality := q }).1 = (ogrInitConfig c).1 ∧
    (ogrInitConfig c).2.m_record_jpg_quality ≤ 100 ∧
    (ogrInitConfig c).2 =
      (if configUsable c then normalizeConfig c else defaultConfig) ∧
    ogrInitConfig { c with m_width := 0 } = (0, defaultConfig) := by
  have hq : configUsable { c with m_record_jpg_quality := q } = configUsable c := rfl
  refine ⟨?_, ?_, ?_, ?_, ?_⟩
  · cases hcu : configUsable c <;> simp [ogrInitConfig, hcu]
  · cases hcu : configUsable c <;> simp [ogrInitConfig, hcu, hq]
  · cases hcu : configUsable c <;>
      simp [ogrInitConfig, hcu, normalizeConfig, defaultConfig]
  · cases hcu : configUsable c <;> simp [ogrInitConfig, hcu]
  · have h0 : configUsable { c with m_width := 0 } = false := by
      simp [configUsable, normWidth]
    simp [ogrInitConfig, h0]

/-- C10: the MJPEG video encoder is available in every build of the
library (it is bundled via turbojpeg), so configuration never fails on
account of video-encoder availability when MJPEG is selected. -/
theorem mjpeg_always_available (libs : EncoderLibs) (c : RecorderConfig) :
    videoEncoderAvailable libs VideoFormat.OGR_VF_MJPEG = true ∧
    configFailsOnEncoderAvailability libs
      { c with m_video_format := VideoFormat.OGR_VF_MJPEG } = false :=
  ⟨rfl, rfl⟩
